import Mathlib

/-!
Shallow embedding of the plonk-verifier accumulation/aggregation code:
  * `src/src/loader/native.rs` — the native loader (plain field/curve arithmetic),
  * `src/src/loader/halo2/shim.rs` — the two circuit-mode backends (`halo2_lib`
    built on `halo2_base`/`halo2_ecc`, and `halo2_wrong` built on
    `halo2_wrong_ecc`'s `MainGate`/`BaseFieldEccChip`),
  * `src/snark-verifier-sdk/src/halo2/aggregation.rs` — the aggregation circuit.

Rust `Result<T, E>` becomes `Except E T`; a Rust panic (`unwrap` on `None`)
becomes `Option.none`; halo2's `Value<T>` (a witness value that may be unknown
during keygen) becomes `Option T`.  Circuit-mode operations are embedded at the
level the claims need: the value each assigned handle carries, the count of
constant-point assignments a context has performed, and — for `invert` — the
constraint predicate the operation emits over the prover's witness choices.
-/

namespace PlonkVerifier

/-- The error type of the `snark_verifier` crate (`Error::AssertionFailure`
carries the caller-supplied annotation string; `Error::Transcript` models the
transcript-exhaustion failure). -/
inductive VError where
  | AssertionFailure ( annotation : String)
  | Transcript
  deriving Repr, DecidableEq

/-- `halo2_proofs::plonk::Error` — only the `Synthesis` variant is produced by
the code under verification. -/
inductive PlonkError where
  | Synthesis
  deriving Repr, DecidableEq

/-! ## Native loader (`src/src/loader/native.rs`) -/

namespace NativeLoader

/-- `ScalarLoader::assert_eq` for `NativeLoader` (native.rs lines 79–87):
`lhs.eq(rhs).then_some(()).ok_or_else(|| Error::AssertionFailure(annotation.to_string()))`. -/
def assert_eq {F : Type} [DecidableEq F] ( annotation : String) (lhs rhs : F) :
    Except VError Unit :=
  if lhs = rhs then .ok () else .error (.AssertionFailure annotation)

/-- `EcPointLoader::ec_point_assert_eq` for `NativeLoader` (native.rs lines
62–70); textually the same comparison as the scalar case, over curve points. -/
def ec_point_assert_eq {C : Type} [DecidableEq C] ( annotation : String) (lhs rhs : C) :
    Except VError Unit :=
  if lhs = rhs then .ok () else .error (.AssertionFailure annotation)

/-- `LoadedEcPoint::multi_scalar_multiplication` (native.rs lines 23–30):
`pairs.into_iter().map(|(scalar, base)| base * scalar).reduce(|acc, v| acc + v).unwrap()`.
`reduce` over an empty iterator yields `None` and the `unwrap` panics, which we
model as `Option.none`. -/
def multi_scalar_multiplication {F G : Type} [Ring F] [AddCommGroup G] [Module F G]
    (pairs : List (F × G)) : Option G :=
  match pairs.map (fun p => p.1 • p.2) with
  | [] => none
  | x :: xs => some (xs.foldl (· + ·) x)

end NativeLoader

/-! ## Aggregation (`src/snark-verifier-sdk/src/halo2/aggregation.rs`) -/

/-- A KZG accumulator: a pair of curve points representing the deferred
pairing check (`snark_verifier::pcs::kzg::KzgAccumulator`). -/
structure KzgAccumulator (G : Type) where
  lhs : G
  rhs : G
  deriving Repr, DecidableEq

/-- Modelled from the spec: the observable activity of a Fiat–Shamir
transcript (`PoseidonTranscript`, not under src/) — how many proof items have
been read from the stream, how many challenges squeezed, and how many times
`new_stream` reset the cursor.  The claims about aggregation only constrain
this activity, not the sponge contents. -/
structure TState where
  reads : Nat
  challenges : Nat
  streams : Nat
  deriving Repr, DecidableEq

/-- Modelled from the spec: `new_stream` resets the cursor to a fresh byte
stream, keeping the sponge specification. -/
def TState.new_stream (ts : TState) : TState :=
  { ts with streams := ts.streams + 1 }

/-- Modelled from the spec: reading `n` proof items advances the cursor. -/
def TState.read_n (ts : TState) (n : Nat) : TState :=
  { ts with reads := ts.reads + n }

/-- Modelled from the spec: squeezing a challenge from the sponge.  The
challenge value is abstracted as the (deterministic) squeeze counter. -/
def TState.squeeze (ts : TState) : Nat × TState :=
  (ts.challenges + 1, { ts with challenges := ts.challenges + 1 })

/-- Modelled from the spec: `KzgAs::read_proof` (not under src/) absorbs all
accumulators' commitments, reads the accumulation-proof items from the stream
and derives the folding challenge. -/
def kzgAsReadProof {G : Type} (accs : List (KzgAccumulator G)) (ts : TState) :
    Nat × TState :=
  (ts.read_n accs.length).squeeze

/-- Modelled from the spec: `KzgAs::verify` (not under src/) folds the
accumulators by a coefficient-weighted combination with powers of the folding
challenge `r`. -/
def kzgAsVerify {G : Type} [AddCommMonoid G] (accs : List (KzgAccumulator G))
    (r : Nat) : KzgAccumulator G :=
  { lhs := (accs.enum.map (fun p => r ^ p.1 • p.2.lhs)).sum
    rhs := (accs.enum.map (fun p => r ^ p.1 • p.2.rhs)).sum }

/-- `aggregate` (aggregation.rs lines 48–112), parameterized by the succinct
verifier (`Plonk::read_proof`/`succinct_verify`, external to src/), which maps
each snark and the current transcript to its accumulators and the advanced
transcript.  The accumulators of all snarks are flat-mapped together; then
(lines 102–109): if more than one accumulator, `new_stream(as_proof)`,
`KzgAs::read_proof` and `KzgAs::verify` fold them; otherwise
`accumulators.pop().unwrap()` returns the last accumulator — a panic (`none`)
when there are none. -/
def aggregate {S G : Type} [AddCommMonoid G]
    (succinct : S → TState → List (KzgAccumulator G) × TState)
    (snarks : List S) (ts : TState) : Option (KzgAccumulator G × TState) :=
  let st := snarks.foldl
    (fun st s =>
      let r := succinct s st.2
      (st.1 ++ r.1, r.2))
    (([] : List (KzgAccumulator G)), ts)
  if st.1.length > 1 then
    let ts2 := st.2.new_stream
    let pr := kzgAsReadProof st.1 ts2
    some (kzgAsVerify st.1 pr.1, pr.2)
  else
    st.1.getLast?.map (fun a => (a, st.2))

/-- Modelled from the spec: `fe_to_limbs`
(`snark_verifier::util::arithmetic`, not under src/) splits a field element —
taken here as its canonical integer representative — into `LIMBS` limbs of
`BITS` bits each, little-endian. -/
def fe_to_limbs (BITS LIMBS : Nat) (fe : Nat) : List Nat :=
  (List.range LIMBS).map fun i => fe / 2 ^ (BITS * i) % 2 ^ BITS

/-- An affine bn256 G1 point, coordinates taken as canonical integer
representatives of the base field. -/
structure G1Point where
  x : Nat
  y : Nat
  deriving Repr, DecidableEq

namespace AggregationCircuit

/-- `AggregationCircuit::new` line 226:
`[lhs.x, lhs.y, rhs.x, rhs.y].map(fe_to_limbs::<_, _, LIMBS, BITS>).concat()`. -/
def instances (BITS LIMBS : Nat) (acc : KzgAccumulator G1Point) : List Nat :=
  ([acc.lhs.x, acc.lhs.y, acc.rhs.x, acc.rhs.y].map (fe_to_limbs BITS LIMBS)).flatten

/-- `AggregationCircuit::num_instance` (aggregation.rs lines 240–242):
`vec![4 * LIMBS]`. -/
def num_instance (LIMBS : Nat) : List Nat := [4 * LIMBS]

end AggregationCircuit

/-- A failed Rust `assert!` — the panic raised by
`AggregationConfig::configure` on a limb-parameter mismatch. -/
inductive ConfigPanic where
  | assertFailed
  deriving Repr, DecidableEq

/-- `AggregationConfigParams` (aggregation.rs lines 114–124); the strategy
enum is abstracted as a selector index. -/
structure AggregationConfigParams where
  strategy : Nat
  degree : Nat
  num_advice : Nat
  num_lookup_advice : Nat
  num_fixed : Nat
  lookup_bits : Nat
  limb_bits : Nat
  num_limbs : Nat
  deriving Repr, DecidableEq

/-- `AggregationConfig` (aggregation.rs lines 126–130); the base-field config
is modelled by the decomposition parameters `FpConfig::configure` receives. -/
structure AggregationConfig where
  fp_limb_bits : Nat
  fp_num_limbs : Nat
  deriving Repr, DecidableEq

/-- `AggregationConfig::configure` (aggregation.rs lines 133–157): first
`assert!(params.limb_bits == BITS && params.num_limbs == LIMBS)` — a panic
(`.error`) on mismatch, before `FpConfig::configure` or the instance column is
touched; on success the base-field config is built with the crate constants
`BITS`, `LIMBS` (not the supplied params). -/
def AggregationConfig.configure (BITS LIMBS : Nat) (p : AggregationConfigParams) :
    Except ConfigPanic AggregationConfig :=
  if p.limb_bits = BITS ∧ p.num_limbs = LIMBS then
    .ok { fp_limb_bits := BITS, fp_num_limbs := LIMBS }
  else
    .error .assertFailed

/-! ## Backend shim (`src/src/loader/halo2/shim.rs`)

Each backend is embedded at the granularity the claims need:
  * constraint predicates over the prover's free witness choices, for `invert`;
  * the witnessed (`Value`, i.e. `Option`) coordinate values and the returned
    `Result`, for the point `assert_equal`;
  * the handle values (an abstract module `G` over the scalar field `F`),
    together with a count of constant-point assignments and the aux-generator
    flag, for `sum_with_const` and the MSMs;
  * the limb-representation integers, for `normalize`.
-/

/-- An assigned ec point's witnessed affine coordinates; `none` models
`Value::unknown()` (keygen, no witness available). -/
structure AssignedEcPoint (F : Type) where
  x : Option F
  y : Option F
  deriving Repr, DecidableEq

/-- The coordinate-value comparison both `halo2_wrong` `assert_equal` impls
perform: over `x` and `y`, whenever both witnessed values are known, they must
agree; unknown values never veto. -/
def witnessedCoordsAgree {F : Type} [DecidableEq F] (a b : AssignedEcPoint F) : Bool :=
  [(a.x, b.x), (a.y, b.y)].all fun p =>
    match p.1, p.2 with
    | some l, some r => decide (l = r)
    | _, _ => true

namespace Halo2Lib

/-- The `halo2_base` circuit context, reduced to the observables the claims
constrain: the coordinate equality constraints emitted so far and the number
of constant points assigned. -/
structure Ctx (F : Type) where
  eqConstraints : List (Option F × Option F)
  constPoints : Nat
  deriving Repr, DecidableEq

/-- Modelled from the spec: the `halo2_base` `is_zero` gadget (library code,
not under src/) witnesses `inv` and the output `z` and emits the standard
constraints `z = 1 - a·inv` and `a·z = 0`, which force `z` to be the
zero-indicator of `a` in any satisfying assignment. -/
def is_zero_constraints {F : Type} [Field F] (a z inv : F) : Prop :=
  z = 1 - a * inv ∧ a * z = 0

/-- `assert_is_const` pins an assigned cell to a constant. -/
def assert_is_const_constraint {F : Type} (z c : F) : Prop :=
  z = c

/-- Modelled from the spec: `GateInstructions::div_unsafe(1, a)` (halo2_base,
not under src/) witnesses the quotient `r` and constrains `a·r = 1`. -/
def div_unsafe_one_constraint {F : Type} [Field F] (a r : F) : Prop :=
  a * r = 1

/-- halo2_lib `IntegerInstructions::invert` (shim.rs lines 246–260): first
`is_zero`, then `assert_is_const(is_zero, 0)` — the explicit non-zero-ness
constraint — then `div_unsafe(1, a)` whose output cell `r` is returned.  The
conjunction is the emitted constraint set over the prover's witness choices
`z`, `inv`, `r`. -/
def invert_constraints {F : Type} [Field F] (a z inv r : F) : Prop :=
  is_zero_constraints a z inv ∧ assert_is_const_constraint z 0 ∧
    div_unsafe_one_constraint a r

/-- halo2_lib `EccInstructions::assert_equal` (shim.rs lines 370–378):
delegates to the chip's `assert_equal`, which emits the coordinate equality
constraints, and returns `Ok(())` unconditionally — the witnessed values are
never compared. -/
def ec_assert_equal {F : Type} (ctx : Ctx F) (a b : AssignedEcPoint F) :
    Ctx F × Except PlonkError Unit :=
  ({ ctx with eqConstraints := ctx.eqConstraints ++ [(a.x, b.x), (a.y, b.y)] },
   .ok ())

/-- halo2_lib `EccInstructions::normalize` (shim.rs lines 362–368):
`Ok(point.clone())`, the context untouched — a no-op. -/
def normalize {F P : Type} (ctx : Ctx F) (point : P) : Ctx F × Except PlonkError P :=
  (ctx, .ok point)

/-- Modelled from the spec: `EccInstructions::assign_constant`
(shim.rs lines 287–298, delegating to halo2_ecc's `FixedEcPoint`, not under
src/) assigns a compile-time-known point as a constant; the handle's value is
that point. -/
def assign_constant {F G : Type} (ctx : Ctx F) (p : G) : Ctx F × G :=
  ({ ctx with constPoints := ctx.constPoints + 1 }, p)

/-- halo2_lib `EccInstructions::sum_with_const` (shim.rs lines 315–328): an
identity constant is skipped (`None` — never assigned); otherwise the constant
is assigned as a constant point; the chip's `sum` then folds the optional
constant chained before the values. -/
def sum_with_const {F G : Type} [AddCommGroup G] [DecidableEq G]
    (ctx : Ctx F) (values : List G) (constant : G) :
    Ctx F × Except PlonkError G :=
  if constant = 0 then
    (ctx, .ok values.sum)
  else
    let r := assign_constant ctx constant
    (r.1, .ok (r.2 + values.sum))

end Halo2Lib

namespace Halo2Wrong

/-- The `halo2_wrong` circuit context (`RegionCtx` plus the chip state the
claims constrain): emitted coordinate equality constraints, the number of
constant points assigned, and whether the MSM auxiliary generator has been
assigned. -/
structure Ctx (F : Type) where
  eqConstraints : List (Option F × Option F)
  constPoints : Nat
  auxAssigned : Bool
  deriving Repr, DecidableEq

/-- Modelled from the spec: `MainGate::invert_unsafe` (halo2_wrong maingate,
not under src/) witnesses the inverse `r` and constrains `a·r = 1` — a
constraint no witness satisfies when `a = 0`.  shim.rs lines 554–560 delegate
`IntegerInstructions::invert` to it. -/
def invert_constraints {F : Type} [Field F] (a r : F) : Prop :=
  a * r = 1

/-- halo2_wrong `EccInstructions::assert_equal` (shim.rs lines 672–687): folds
`eq &= lhs.value == rhs.value` over both coordinates wherever the witnessed
integer values are known, emits the chip equality constraint, and `.and`s the
result with `eq.then_some(()).ok_or(Error::Synthesis)`. -/
def ec_assert_equal {F : Type} [DecidableEq F] (ctx : Ctx F)
    (a b : AssignedEcPoint F) : Ctx F × Except PlonkError Unit :=
  ({ ctx with eqConstraints := ctx.eqConstraints ++ [(a.x, b.x), (a.y, b.y)] },
   if witnessedCoordsAgree a b then .ok () else .error .Synthesis)

/-- halo2_wrong `EccInstructions::normalize` (shim.rs lines 664–670),
delegating to the chip's `normalize` (halo2_wrong_ecc, not under src/),
modelled from the spec as reducing each coordinate's limb-representation
integer to its canonical residue below the base-field modulus `q` — a real
reduction preserving the represented value. -/
def normalize {F : Type} (q : Nat) (ctx : Ctx F) (xRep yRep : Nat) :
    Ctx F × Except PlonkError (Nat × Nat) :=
  (ctx, .ok (xRep % q, yRep % q))

/-- Modelled from the spec: `EccInstructions::assign_constant`
(shim.rs lines 590–596, delegating to the halo2_wrong_ecc chip, not under
src/) assigns a compile-time-known point as a constant; the handle's value is
that point. -/
def assign_constant {F G : Type} (ctx : Ctx F) (p : G) : Ctx F × G :=
  ({ ctx with constPoints := ctx.constPoints + 1 }, p)

/-- halo2_wrong `EccInstructions::sum_with_const` (shim.rs lines 606–624): an
empty values list returns `assign_constant(constant)` directly — even when the
constant is the identity; otherwise a non-identity constant is assigned and
chained before the values, an identity constant is skipped, and the chain is
folded with the chip's `add`. -/
def sum_with_const {F G : Type} [AddCommGroup G] [DecidableEq G]
    (ctx : Ctx F) (values : List G) (constant : G) :
    Ctx F × Except PlonkError G :=
  if values = [] then
    let r := assign_constant ctx constant
    (r.1, .ok r.2)
  else if constant = 0 then
    (ctx, .ok values.sum)
  else
    let r := assign_constant ctx constant
    (r.1, .ok (r.2 + values.sum))

/-- Modelled from the spec: `mul_batch_1d_horizontal` (halo2_wrong_ecc, not
under src/) computes the variable-base MSM of its (point, scalar) pairs, but
its windowing precondition needs the auxiliary generator setup and the call
fails without it. -/
def mul_batch_1d_horizontal {F G : Type} [Ring F] [AddCommGroup G] [Module F G]
    (ctx : Ctx F) (pairs : List (G × F)) : Except PlonkError G :=
  if ctx.auxAssigned then .ok (pairs.map fun p => p.2 • p.1).sum
  else .error .Synthesis

/-- Modelled from the spec: `assign_aux` derives the windowing auxiliary
points; it fails unless the auxiliary generator has been assigned. -/
def assign_aux {F : Type} (ctx : Ctx F) : Except PlonkError Unit :=
  if ctx.auxAssigned then .ok () else .error .Synthesis

/-- Modelled from the spec: `assign_aux_generator` performs the one-time
assignment of a random auxiliary generator. -/
def assign_aux_generator {F : Type} (ctx : Ctx F) : Ctx F :=
  { ctx with auxAssigned := true }

/-- halo2_wrong `EccInstructions::variable_base_msm` (shim.rs lines 641–662):
swap each (scalar, base) pair into (base, scalar), try
`mul_batch_1d_horizontal`; on failure run the bounded one-time aux setup
(`assign_aux`, falling back to `assign_aux_generator` and `assign_aux`) and
retry the same batch multiplication. -/
def variable_base_msm {F G : Type} [Ring F] [AddCommGroup G] [Module F G]
    (ctx : Ctx F) (pairs : List (F × G)) : Ctx F × Except PlonkError G :=
  let swapped := pairs.map fun p => (p.2, p.1)
  match mul_batch_1d_horizontal ctx swapped with
  | .error _ =>
      let ctx' :=
        match assign_aux ctx with
        | .error _ => assign_aux_generator ctx
        | .ok _ => ctx
      (ctx', mul_batch_1d_horizontal ctx' swapped)
  | .ok r => (ctx, .ok r)

/-- halo2_wrong `EccInstructions::fixed_base_msm` (shim.rs lines 626–639): no
specialized fixed-base routine — assign each fixed base as a constant point,
then invoke `variable_base_msm` on the resulting pairs. -/
def fixed_base_msm {F G : Type} [Ring F] [AddCommGroup G] [Module F G]
    (ctx : Ctx F) (pairs : List (F × G)) : Ctx F × Except PlonkError G :=
  let assigned := pairs.foldl
    (fun st p =>
      let r := assign_constant st.1 p.2
      (r.1, st.2 ++ [(p.1, r.2)]))
    (ctx, ([] : List (F × G)))
  variable_base_msm assigned.1 assigned.2

end Halo2Wrong

/-- The result a specialized fixed-base multi-scalar-multiplication routine
would produce, as the spec describes it: `Σ scalarᵢ • baseᵢ`. -/
def fixedBaseMsmSpec {F G : Type} [Ring F] [AddCommGroup G] [Module F G]
    (pairs : List (F × G)) : G :=
  (pairs.map fun p => p.1 • p.2).sum

/-- Modelled from the spec: native-mode `normalize` (loader code not under
src/) is the identity operation on concrete values. -/
def nativeNormalize {P : Type} (p : P) : P :=
  p

end PlonkVerifier

open PlonkVerifier

/-- `5` is prime, so `ZMod 5` is a field — the concrete scalar field used by
the witness instantiations. -/
instance fact_prime_five : Fact (Nat.Prime 5) := ⟨by norm_num⟩

/-- **C2**: for every pair of loaded values, the native loader's `assert_eq`
(and `ec_point_assert_eq`) returns `Ok(())` iff the two values are equal, and
otherwise returns `AssertionFailure` carrying exactly the caller's annotation;
no other outcome is possible. -/
theorem c2_native_assert_eq_iff {F : Type} [DecidableEq F]
    ( annotation : String) (lhs rhs : F) :
    (NativeLoader.assert_eq annotation lhs rhs = .ok () ↔ lhs = rhs) ∧
    (NativeLoader.assert_eq annotation lhs rhs
        = .error (.AssertionFailure annotation) ↔ lhs ≠ rhs) ∧
    (NativeLoader.ec_point_assert_eq annotation lhs rhs = .ok () ↔ lhs = rhs) ∧
    (NativeLoader.ec_point_assert_eq annotation lhs rhs
        = .error (.AssertionFailure annotation) ↔ lhs ≠ rhs) := by
  unfold NativeLoader.assert_eq NativeLoader.ec_point_assert_eq
  by_cases h : lhs = rhs <;> simp [h]

/-- Witness for C2 at a concrete unequal pair over `Fin 7`. -/
theorem c2_native_assert_eq_iff_witness :
    (NativeLoader.assert_eq "pcs check" (3 : Fin 7) 5 = .ok () ↔ (3 : Fin 7) = 5) ∧
    (NativeLoader.assert_eq "pcs check" (3 : Fin 7) 5
        = .error (.AssertionFailure "pcs check") ↔ (3 : Fin 7) ≠ 5) ∧
    (NativeLoader.ec_point_assert_eq "pcs check" (3 : Fin 7) 5 = .ok () ↔ (3 : Fin 7) = 5) ∧
    (NativeLoader.ec_point_assert_eq "pcs check" (3 : Fin 7) 5
        = .error (.AssertionFailure "pcs check") ↔ (3 : Fin 7) ≠ 5) :=
  c2_native_assert_eq_iff "pcs check" 3 5

/-- **C10**: the native `multi_scalar_multiplication` panics exactly on the
empty input (modelled as `none`): it is total (`isSome`) precisely on
non-empty pair lists. -/
theorem c10_native_msm_empty_panics {F G : Type} [Ring F] [AddCommGroup G] [Module F G]
    (pairs : List (F × G)) :
    (NativeLoader.multi_scalar_multiplication pairs = none ↔ pairs = []) ∧
    ((NativeLoader.multi_scalar_multiplication pairs).isSome ↔ pairs ≠ []) := by
  unfold NativeLoader.multi_scalar_multiplication
  cases pairs <;> simp

/-- Witness for C10 at the empty list and a singleton list over `ℤ`. -/
theorem c10_native_msm_empty_panics_witness :
    (NativeLoader.multi_scalar_multiplication ([] : List (ℤ × ℤ)) = none ↔
      ([] : List (ℤ × ℤ)) = []) ∧
    ((NativeLoader.multi_scalar_multiplication ([] : List (ℤ × ℤ))).isSome ↔
      ([] : List (ℤ × ℤ)) ≠ []) :=
  c10_native_msm_empty_panics []

/-- **C1**: when a snark's succinct verification yields exactly one
accumulator, `aggregate` returns that accumulator bit-identical, and the
transcript is exactly as the succinct-verification pass left it: the
accumulation step opens no new stream, reads no accumulation-proof bytes and
squeezes no folding challenge. -/
theorem c1_single_accumulator_unchanged {S G : Type} [AddCommMonoid G]
    (succinct : S → TState → List (KzgAccumulator G) × TState)
    (s : S) (ts ts' : TState) (a : KzgAccumulator G)
    (h : succinct s ts = ([a], ts')) :
    aggregate succinct [s] ts = some (a, ts') := by
  unfold aggregate
  simp [h]

/-- Witness for C1: one snark over `ℕ`-points whose succinct verification
reads 5 proof items and produces the accumulator `(2, 3)`. -/
theorem c1_single_accumulator_unchanged_witness :
    aggregate (fun (_ : Unit) (t : TState) => ([(⟨2, 3⟩ : KzgAccumulator ℕ)], t.read_n 5))
        [()] ⟨0, 0, 0⟩ = some (⟨2, 3⟩, ⟨5, 0, 0⟩) :=
  c1_single_accumulator_unchanged _ () ⟨0, 0, 0⟩ ⟨5, 0, 0⟩ ⟨2, 3⟩ (by decide)

/-- **C5**: the aggregation circuit's public instance vector is exactly the
limb decompositions of `lhs.x`, `lhs.y`, `rhs.x`, `rhs.y` concatenated in that
order; it has exactly `4 * LIMBS` elements (each coordinate contributing
`LIMBS` limbs), each limb below `2 ^ BITS`; and `num_instance` declares
`[4 * LIMBS]`. -/
theorem c5_instance_layout (BITS LIMBS : Nat) (acc : KzgAccumulator G1Point) :
    AggregationCircuit.instances BITS LIMBS acc
      = fe_to_limbs BITS LIMBS acc.lhs.x ++ fe_to_limbs BITS LIMBS acc.lhs.y
        ++ fe_to_limbs BITS LIMBS acc.rhs.x ++ fe_to_limbs BITS LIMBS acc.rhs.y ∧
    (AggregationCircuit.instances BITS LIMBS acc).length = 4 * LIMBS ∧
    (∀ c, (fe_to_limbs BITS LIMBS c).length = LIMBS) ∧
    (∀ v ∈ AggregationCircuit.instances BITS LIMBS acc, v < 2 ^ BITS) ∧
    AggregationCircuit.num_instance LIMBS = [4 * LIMBS] := by
  refine ⟨?_, ?_, ?_, ?_, rfl⟩
  · simp [AggregationCircuit.instances]
  · simp [AggregationCircuit.instances, fe_to_limbs]
    ring
  · intro c
    simp [fe_to_limbs]
  · intro v hv
    simp only [AggregationCircuit.instances, List.mem_flatten, List.mem_map] at hv
    obtain ⟨l, ⟨c, _, rfl⟩, hvl⟩ := hv
    simp only [fe_to_limbs, List.mem_map, List.mem_range] at hvl
    obtain ⟨i, _, rfl⟩ := hvl
    exact Nat.mod_lt _ (Nat.pos_pow_of_pos BITS (by norm_num))

/-- Witness for C5 at `BITS = 4`, `LIMBS = 2` and a concrete accumulator. -/
theorem c5_instance_layout_witness :
    AggregationCircuit.instances 4 2 ⟨⟨300, 7⟩, ⟨9, 255⟩⟩
      = fe_to_limbs 4 2 300 ++ fe_to_limbs 4 2 7
        ++ fe_to_limbs 4 2 9 ++ fe_to_limbs 4 2 255 ∧
    (AggregationCircuit.instances 4 2 ⟨⟨300, 7⟩, ⟨9, 255⟩⟩).length = 4 * 2 ∧
    (∀ c, (fe_to_limbs 4 2 c).length = 2) ∧
    (∀ v ∈ AggregationCircuit.instances 4 2 ⟨⟨300, 7⟩, ⟨9, 255⟩⟩, v < 2 ^ 4) ∧
    AggregationCircuit.num_instance 2 = [4 * 2] :=
  c5_instance_layout 4 2 ⟨⟨300, 7⟩, ⟨9, 255⟩⟩

/-- **C6**: `AggregationConfig::configure` succeeds iff the supplied
`limb_bits`/`num_limbs` match the crate constants `BITS`/`LIMBS`, and on any
mismatch it fails immediately with the assertion panic, before any base-field
configuration is built. -/
theorem c6_configure_fails_fast (BITS LIMBS : Nat) (p : AggregationConfigParams) :
    ((AggregationConfig.configure BITS LIMBS p).isOk ↔
      (p.limb_bits = BITS ∧ p.num_limbs = LIMBS)) ∧
    (AggregationConfig.configure BITS LIMBS p = .error .assertFailed ↔
      ¬(p.limb_bits = BITS ∧ p.num_limbs = LIMBS)) := by
  unfold AggregationConfig.configure
  by_cases h : p.limb_bits = BITS ∧ p.num_limbs = LIMBS <;>
    simp [h, Except.isOk, Except.toBool]

/-- Witness for C6 at the crate constants `BITS = 88`, `LIMBS = 3` and a
mismatched parameter record asking for 64-bit limbs. -/
theorem c6_configure_fails_fast_witness :
    ((AggregationConfig.configure 88 3 ⟨1, 23, 4, 1, 1, 22, 64, 4⟩).isOk ↔
      ((64 : Nat) = 88 ∧ (4 : Nat) = 3)) ∧
    (AggregationConfig.configure 88 3 ⟨1, 23, 4, 1, 1, 22, 64, 4⟩
        = .error .assertFailed ↔ ¬((64 : Nat) = 88 ∧ (4 : Nat) = 3)) :=
  c6_configure_fails_fast 88 3 ⟨1, 23, 4, 1, 1, 22, 64, 4⟩

/-- **C3**: in circuit mode, `invert` on an operand whose value is zero
yields an unsatisfiable constraint set in both backends — no choice of prover
witnesses satisfies the emitted constraints — and any satisfying assignment
for a non-zero operand returns exactly the field inverse, not garbage. -/
theorem c3_invert_zero_unsatisfiable {F : Type} [Field F] :
    (∀ z inv r : F, ¬ Halo2Lib.invert_constraints 0 z inv r) ∧
    (∀ r : F, ¬ Halo2Wrong.invert_constraints 0 r) ∧
    (∀ a z inv r : F, Halo2Lib.invert_constraints a z inv r → a ≠ 0 ∧ r = a⁻¹) ∧
    (∀ a r : F, Halo2Wrong.invert_constraints a r → a ≠ 0 ∧ r = a⁻¹) := by
  simp only [Halo2Lib.invert_constraints, Halo2Lib.is_zero_constraints,
    Halo2Lib.assert_is_const_constraint, Halo2Lib.div_unsafe_one_constraint,
    Halo2Wrong.invert_constraints]
  refine ⟨?_, ?_, ?_, ?_⟩
  · rintro z inv r ⟨⟨hz, -⟩, hz0, -⟩
    rw [hz0] at hz
    simp at hz
  · intro r h
    simp at h
  · rintro a z inv r ⟨-, -, hr⟩
    have ha : a ≠ 0 := by rintro rfl; simp at hr
    exact ⟨ha, mul_left_cancel₀ ha (hr.trans (mul_inv_cancel₀ ha).symm)⟩
  · intro a r hr
    have ha : a ≠ 0 := by rintro rfl; simp at hr
    exact ⟨ha, mul_left_cancel₀ ha (hr.trans (mul_inv_cancel₀ ha).symm)⟩

/-- Witness for C3 over `ZMod 5`: the zero-operand constraint sets reject the
concrete witness choices `(1, 2, 3)` and `4`, and the satisfied constraint set
for the operand `2` pins the result to `2⁻¹ = 3`. -/
theorem c3_invert_zero_unsatisfiable_witness :
    (¬ Halo2Lib.invert_constraints (0 : ZMod 5) 1 2 3) ∧
    (¬ Halo2Wrong.invert_constraints (0 : ZMod 5) 4) ∧
    ((2 : ZMod 5) ≠ 0 ∧ (3 : ZMod 5) = (2 : ZMod 5)⁻¹) :=
  ⟨c3_invert_zero_unsatisfiable.1 1 2 3,
   c3_invert_zero_unsatisfiable.2.1 4,
   c3_invert_zero_unsatisfiable.2.2.2 2 3 (by decide : (2 : ZMod 5) * 3 = 1)⟩

/-- **C4** counterexample: at concretely differing witnessed points, the
halo2_lib backend's point `assert_equal` still returns `Ok(())` — it never
compares the witnessed coordinate values, refuting the claim that both
backends surface a synthesis error on a witnessed-value mismatch. -/
theorem c4_counterexample :
    (Halo2Lib.ec_assert_equal (⟨[], 0⟩ : Halo2Lib.Ctx (Fin 7))
        ⟨some 1, some 2⟩ ⟨some 3, some 2⟩).2 = .ok () ∧
    witnessedCoordsAgree (⟨some 1, some 2⟩ : AssignedEcPoint (Fin 7))
        ⟨some 3, some 2⟩ = false :=
  ⟨rfl, by decide⟩

/-- **C4 amended**: both backends emit the coordinate equality constraints,
but only the halo2_wrong backend compares the witnessed coordinate values and
returns `Error::Synthesis` exactly when some pair of known values differs; the
halo2_lib backend returns `Ok(())` unconditionally. -/
theorem c4_amended_assert_equal {F : Type} [DecidableEq F]
    (ctxL : Halo2Lib.Ctx F) (ctxW : Halo2Wrong.Ctx F) (a b : AssignedEcPoint F) :
    (Halo2Lib.ec_assert_equal ctxL a b).2 = .ok () ∧
    (Halo2Lib.ec_assert_equal ctxL a b).1.eqConstraints
      = ctxL.eqConstraints ++ [(a.x, b.x), (a.y, b.y)] ∧
    ((Halo2Wrong.ec_assert_equal ctxW a b).2 = .error .Synthesis ↔
      witnessedCoordsAgree a b = false) ∧
    ((Halo2Wrong.ec_assert_equal ctxW a b).2 = .ok () ↔
      witnessedCoordsAgree a b = true) ∧
    (Halo2Wrong.ec_assert_equal ctxW a b).1.eqConstraints
      = ctxW.eqConstraints ++ [(a.x, b.x), (a.y, b.y)] := by
  unfold Halo2Lib.ec_assert_equal Halo2Wrong.ec_assert_equal
  cases hw : witnessedCoordsAgree a b <;> simp [hw]

/-- Witness for the amended C4 at concrete contexts and points over `Fin 7`. -/
theorem c4_amended_assert_equal_witness :
    (Halo2Lib.ec_assert_equal (⟨[], 0⟩ : Halo2Lib.Ctx (Fin 7))
        ⟨some 1, some 2⟩ ⟨some 3, some 2⟩).2 = .ok () ∧
    (Halo2Lib.ec_assert_equal (⟨[], 0⟩ : Halo2Lib.Ctx (Fin 7))
        ⟨some 1, some 2⟩ ⟨some 3, some 2⟩).1.eqConstraints
      = [] ++ [(some 1, some 3), (some 2, some 2)] ∧
    ((Halo2Wrong.ec_assert_equal (⟨[], 0, false⟩ : Halo2Wrong.Ctx (Fin 7))
        ⟨some 1, some 2⟩ ⟨some 3, some 2⟩).2 = .error .Synthesis ↔
      witnessedCoordsAgree (⟨some 1, some 2⟩ : AssignedEcPoint (Fin 7))
        ⟨some 3, some 2⟩ = false) ∧
    ((Halo2Wrong.ec_assert_equal (⟨[], 0, false⟩ : Halo2Wrong.Ctx (Fin 7))
        ⟨some 1, some 2⟩ ⟨some 3, some 2⟩).2 = .ok () ↔
      witnessedCoordsAgree (⟨some 1, some 2⟩ : AssignedEcPoint (Fin 7))
        ⟨some 3, some 2⟩ = true) ∧
    (Halo2Wrong.ec_assert_equal (⟨[], 0, false⟩ : Halo2Wrong.Ctx (Fin 7))
        ⟨some 1, some 2⟩ ⟨some 3, some 2⟩).1.eqConstraints
      = [] ++ [(some 1, some 3), (some 2, some 2)] :=
  c4_amended_assert_equal ⟨[], 0⟩ ⟨[], 0, false⟩ ⟨some 1, some 2⟩ ⟨some 3, some 2⟩

/-- The constant-assignment loop of halo2_wrong `fixed_base_msm` pairs each
scalar with the constant-assigned base, preserving the pair list. -/
theorem halo2wrong_fixed_base_pairs {F G : Type} (pairs : List (F × G)) :
    ∀ (ctx : Halo2Wrong.Ctx F) (acc : List (F × G)),
      (pairs.foldl
        (fun st p =>
          let r := Halo2Wrong.assign_constant st.1 p.2
          (r.1, st.2 ++ [(p.1, r.2)]))
        (ctx, acc)).2 = acc ++ pairs := by
  induction pairs with
  | nil => intro ctx acc; simp
  | cons p ps ih =>
      intro ctx acc
      simp only [List.foldl_cons]
      rw [ih]
      simp [Halo2Wrong.assign_constant]

/-- halo2_wrong `variable_base_msm` always yields the MSM value: whether the
first `mul_batch_1d_horizontal` attempt succeeds or the aux-generator setup
retry runs, the logical output is `Σ scalarᵢ • baseᵢ`. -/
theorem halo2wrong_variable_base_msm_value {F G : Type}
    [Ring F] [AddCommGroup G] [Module F G]
    (ctx : Halo2Wrong.Ctx F) (pairs : List (F × G)) :
    (Halo2Wrong.variable_base_msm ctx pairs).2 = .ok (fixedBaseMsmSpec pairs) := by
  unfold Halo2Wrong.variable_base_msm Halo2Wrong.mul_batch_1d_horizontal
    Halo2Wrong.assign_aux Halo2Wrong.assign_aux_generator fixedBaseMsmSpec
  cases h : ctx.auxAssigned <;> simp [h, List.map_map, Function.comp_def]

/-- **C7**: for every context and list of (scalar, fixed base) pairs, the
halo2_wrong backend's `fixed_base_msm` — assigning each base as a constant
point and invoking `variable_base_msm` — returns exactly the multi-scalar
multiplication `Σ scalarᵢ • baseᵢ` a specialized fixed-base routine would
produce. -/
theorem c7_fixed_base_msm_eq_spec {F G : Type} [Ring F] [AddCommGroup G] [Module F G]
    (ctx : Halo2Wrong.Ctx F) (pairs : List (F × G)) :
    (Halo2Wrong.fixed_base_msm ctx pairs).2 = .ok (fixedBaseMsmSpec pairs) := by
  unfold Halo2Wrong.fixed_base_msm
  have hp := halo2wrong_fixed_base_pairs pairs ctx []
  simp only [List.nil_append] at hp
  simp only [hp]
  exact halo2wrong_variable_base_msm_value _ pairs

/-- **C8** counterexample: at a concrete context and point, the halo2_lib
backend's `normalize` returns its input bit-identical with the context
untouched — a no-op, refuting the claim that each circuit-mode backend's
`normalize` is a genuine reduction step. -/
theorem c8_counterexample :
    Halo2Lib.normalize (⟨[], 0⟩ : Halo2Lib.Ctx (Fin 7))
        (⟨some 5, some 6⟩ : AssignedEcPoint (Fin 7))
      = (⟨[], 0⟩, .ok ⟨some 5, some 6⟩) := rfl

/-- **C8 amended**: `normalize` is the identity on native values; the
halo2_wrong backend's `normalize` is a real reduction — it maps each
coordinate representation to the congruent canonical residue below the
modulus — while the halo2_lib backend's `normalize` returns the point
unchanged (its representation needs no reduction). -/
theorem c8_amended_normalize {F P : Type} (ctxL : Halo2Lib.Ctx F) (p : P)
    (q : Nat) (hq : 0 < q) (ctxW : Halo2Wrong.Ctx F) (xRep yRep : Nat) :
    nativeNormalize p = p ∧
    Halo2Lib.normalize ctxL p = (ctxL, .ok p) ∧
    (Halo2Wrong.normalize q ctxW xRep yRep).2 = .ok (xRep % q, yRep % q) ∧
    xRep % q ≡ xRep [MOD q] ∧ xRep % q < q ∧
    yRep % q ≡ yRep [MOD q] ∧ yRep % q < q :=
  ⟨rfl, rfl, rfl, Nat.mod_modEq xRep q, Nat.mod_lt xRep hq,
   Nat.mod_modEq yRep q, Nat.mod_lt yRep hq⟩

/-- Witness for the amended C8 with modulus `7` and representation `(19, 3)`. -/
theorem c8_amended_normalize_witness :
    nativeNormalize (42 : ℕ) = 42 ∧
    Halo2Lib.normalize (⟨[], 0⟩ : Halo2Lib.Ctx (Fin 7)) (42 : ℕ)
      = (⟨[], 0⟩, .ok 42) ∧
    (Halo2Wrong.normalize 7 (⟨[], 0, false⟩ : Halo2Wrong.Ctx (Fin 7)) 19 3).2
      = .ok (19 % 7, 3 % 7) ∧
    19 % 7 ≡ 19 [MOD 7] ∧ 19 % 7 < 7 ∧
    3 % 7 ≡ 3 [MOD 7] ∧ 3 % 7 < 7 :=
  c8_amended_normalize ⟨[], 0⟩ 42 7 (by decide) ⟨[], 0, false⟩ 19 3

/-- **C9** counterexample: at the empty values list with the identity
constant, the halo2_wrong backend's `sum_with_const` assigns the constant —
the constant-assignment count rises from 0 to 1 — refuting the claim that the
identity constant is always skipped and never assigned. -/
theorem c9_counterexample :
    Halo2Wrong.sum_with_const (⟨[], 0, false⟩ : Halo2Wrong.Ctx (Fin 7))
        ([] : List ℤ) 0
      = ({ eqConstraints := [], constPoints := 1, auxAssigned := false },
         .ok 0) := rfl

/-- **C9 amended**: both backends' `sum_with_const` return the sum of the
assigned points' values plus the constant; the identity constant is skipped
(never assigned) by halo2_lib always and by halo2_wrong whenever the values
list is non-empty, but on an empty values list halo2_wrong assigns the
constant — even the identity — and returns it directly. -/
theorem c9_amended_sum_with_const {F G : Type} [AddCommGroup G] [DecidableEq G]
    (ctxL : Halo2Lib.Ctx F) (ctxW : Halo2Wrong.Ctx F)
    (values : List G) (constant : G) :
    (Halo2Lib.sum_with_const ctxL values constant).2 = .ok (values.sum + constant) ∧
    (Halo2Lib.sum_with_const ctxL values constant).1.constPoints
      = ctxL.constPoints + (if constant = 0 then 0 else 1) ∧
    (Halo2Wrong.sum_with_const ctxW values constant).2 = .ok (values.sum + constant) ∧
    (Halo2Wrong.sum_with_const ctxW values constant).1.constPoints
      = ctxW.constPoints
        + (if values = [] then 1 else if constant = 0 then 0 else 1) := by
  unfold Halo2Lib.sum_with_const Halo2Wrong.sum_with_const
    Halo2Lib.assign_constant Halo2Wrong.assign_constant
  by_cases hv : values = [] <;> by_cases hc : constant = 0 <;>
    simp [hv, hc, add_comm]

/-- Witness for the amended C9 over `ℤ` points at a non-empty list with a
non-identity constant. -/
theorem c9_amended_sum_with_const_witness :
    (Halo2Lib.sum_with_const (⟨[], 0⟩ : Halo2Lib.Ctx (Fin 7))
        [(2 : ℤ), 3] 10).2 = .ok ([(2 : ℤ), 3].sum + 10) ∧
    (Halo2Lib.sum_with_const (⟨[], 0⟩ : Halo2Lib.Ctx (Fin 7))
        [(2 : ℤ), 3] 10).1.constPoints = 0 + (if (10 : ℤ) = 0 then 0 else 1) ∧
    (Halo2Wrong.sum_with_const (⟨[], 0, false⟩ : Halo2Wrong.Ctx (Fin 7))
        [(2 : ℤ), 3] 10).2 = .ok ([(2 : ℤ), 3].sum + 10) ∧
    (Halo2Wrong.sum_with_const (⟨[], 0, false⟩ : Halo2Wrong.Ctx (Fin 7))
        [(2 : ℤ), 3] 10).1.constPoints
      = 0 + (if ([(2 : ℤ), 3] : List ℤ) = [] then 1
             else if (10 : ℤ) = 0 then 0 else 1) :=
  c9_amended_sum_with_const ⟨[], 0⟩ ⟨[], 0, false⟩ [(2 : ℤ), 3] 10
